import Mathlib

/-!
Shallow embedding of the icon validation check of appimagelint
(src/appimagelint/checks/icons.py, class IconsCheck), together with the
spec-level models needed to settle the frozen claims.

Text is modelled as List Char (Python str), filesystem paths as lists of
path components (List (List Char)), and a mounted bundle as the list of
regular files visible under the mountpoint.  Image decoding (PIL
Image.open) is modelled by the optional decoded size stored with each
file: none means the file is missing or undecodable, some (w, h) is the
decoded resolution.  Fallible code paths return Option or Except.
-/

/-- Modelled from the spec: the Result record produced by a check, with a
boolean outcome, a dotted identifier and a human description (the models
module of the repository is not under src, only its use sites are). -/
structure TestResult where
  success : Bool
  id : String
  description : String
deriving DecidableEq, Repr

/-- One regular file of the mounted bundle: its path (components relative
to the mountpoint), its text contents (used for the desktop file) and the
result of decoding it as an image (none when missing or undecodable). -/
structure FileEntry where
  path : List (List Char)
  text : List Char
  image : Option (Nat × Nat)
deriving DecidableEq, Repr

/-- Modelled from the spec: the mounted, read-only filesystem view of one
bundle, as the finite list of files below the mountpoint, in the
enumeration order the OS reports them. -/
abbrev Bundle := List FileEntry

/-- Python s.split(sep) for a one-character separator: list of chunks
between occurrences of the separator; never empty, an empty string
splits to one empty chunk. -/
def splitOnChar (sep : Char) : List Char → List (List Char)
  | [] => [[]]
  | c :: rest =>
    if c = sep then [] :: splitOnChar sep rest
    else
      match splitOnChar sep rest with
      | [] => [[c]]
      | l :: ls => (c :: l) :: ls

/-- The characters of the regex pattern literal part: Icon= . -/
def iconPat : List Char := ['I', 'c', 'o', 'n', '=']

/-- Model of re.search with pattern Icon=(.+) on the whole desktop file
text (source line 51): scan the text position by position, left to
right; at the first position where the literal Icon= matches and at
least one non-newline character follows, return the greedy capture, the
remainder of that line.  No anchoring: the occurrence may lie anywhere,
including in the middle of a line. -/
def pyReSearchIcon : List Char → Option (List Char)
  | [] => none
  | c :: rest =>
    let s := c :: rest
    let v := (s.drop 5).takeWhile (fun a => a != '\n')
    if iconPat.isPrefixOf s && !v.isEmpty then some v
    else pyReSearchIcon rest

/-- Search inside one newline-free line: first occurrence of Icon= inside
the line that is followed by at least one character, value is the rest of
the line.  Used by the line-oriented characterisation of the extraction. -/
def lineSearchIcon : List Char → Option (List Char)
  | [] => none
  | c :: rest =>
    let s := c :: rest
    if iconPat.isPrefixOf s && !(s.drop 5).isEmpty then some (s.drop 5)
    else lineSearchIcon rest

/-- First line (in order) on which the given per-line search succeeds. -/
def linesFirst (f : List Char → Option (List Char)) : List (List Char) → Option (List Char)
  | [] => none
  | ln :: rest =>
    match f ln with
    | some v => some v
    | none => linesFirst f rest

/-- Split a text into its lines (separator-free chunks around newline). -/
def splitLines (l : List Char) : List (List Char) :=
  splitOnChar '\n' l

/-- Line-oriented characterisation of the extraction the source performs:
the first line holding a viable occurrence of Icon= anywhere inside it
supplies the value (the rest of that line after the occurrence). -/
def iconValueByLines (l : List Char) : Option (List Char) :=
  linesFirst lineSearchIcon (splitLines l)

/-- Modelled from the spec (claim C4 as written): take the value from the
first line BEGINNING with Icon=, the value being the remainder of that
line; lines where Icon= is not at the beginning supply nothing. -/
def iconValueFirstLineBegin (l : List Char) : Option (List Char) :=
  linesFirst
    (fun ln => if iconPat.isPrefixOf ln && !(ln.drop 5).isEmpty then some (ln.drop 5) else none)
    (splitLines l)

/-- Nonempty all-digit string. -/
def pyDigits (l : List Char) : Bool :=
  !l.isEmpty && l.all (fun c => c.isDigit)

/-- Numeric value of a digit string. -/
def digitsToNat (l : List Char) : Nat :=
  l.foldl (fun a c => a * 10 + (c.toNat - 48)) 0

/-- Model of the Python builtin int() on a path component: an optional
sign followed by a nonempty run of decimal digits parses, anything else
raises (returns none). -/
def pyInt (s : List Char) : Option Int :=
  match s with
  | '+' :: rest => if pyDigits rest then some ((digitsToNat rest : Nat) : Int) else none
  | '-' :: rest => if pyDigits rest then some (-((digitsToNat rest : Nat) : Int)) else none
  | _ => if pyDigits s then some ((digitsToNat s : Nat) : Int) else none

/-- All-or-nothing integer parse of a list of chunks: some list when every
chunk parses, none as soon as one chunk raises. -/
def intsOfParts : List (List Char) → Option (List Int)
  | [] => some []
  | p :: rest =>
    match pyInt p, intsOfParts rest with
    | some n, some l => some (n :: l)
    | _, _ => none

/-- Source lines 140-141: tuple(int(i) for i in s.split("x")), returning
none when some piece does not parse (the exception path). -/
def extract_res_from_path_component (s : List Char) : Option (List Int) :=
  intsOfParts (splitOnChar 'x' s)

/-- Python truthiness of the path_res variable: None and the empty tuple
are falsy, every nonempty tuple is truthy. -/
def pythonFalsy : Option (List Int) → Bool
  | none => true
  | some l => l.isEmpty

/-- Source lines 157-163: scan the split path components in order and
keep the first one whose extraction succeeds. -/
def firstRecovered : List (List Char) → Option (List Int)
  | [] => none
  | c :: rest =>
    match extract_res_from_path_component c with
    | some r => some r
    | none => firstRecovered rest

/-- Source line 15: the class attribute of valid icon resolutions. -/
def _VALID_RESOLUTIONS : List Nat := [8, 16, 32, 48, 56, 64, 128, 192, 256, 384, 512]

/-- Source lines 184-195, outcome of _get_icon_res for the file at a
path: open the first file with that path and return its decoded size;
any failure (missing file, undecodable image) is caught and yields None. -/
def _get_icon_res (b : Bundle) (path : List (List Char)) : Option (Nat × Nat) :=
  match b.find? (fun f => f.path == path) with
  | none => none
  | some f => f.image

/-- Source lines 197-203, body of _check_icon_for_valid_resolution given
the decode outcome of the file at icon_path: False when the resolution
could not be obtained, otherwise membership of both components in
_VALID_RESOLUTIONS. -/
def _check_icon_for_valid_resolution (res : Option (Nat × Nat)) : Bool :=
  match res with
  | none => false
  | some (w, h) => _VALID_RESOLUTIONS.contains w && _VALID_RESOLUTIONS.contains h

/-- Source line 59: the well-known icon file extensions. -/
def knownImageExts : List (List Char) :=
  ["png".data, "xpm".data, "svg".data, "jpg".data]

/-- Index of the last dot of a filename, if any. -/
def lastDotIdx : List Char → Option Nat
  | [] => none
  | c :: rest =>
    match lastDotIdx rest with
    | some i => some (i + 1)
    | none => if c = '.' then some 0 else none

/-- os.path.splitext on a bare filename: split at the last dot unless
every character before that dot is itself a dot (leading dots of a
hidden file are not an extension separator). -/
def splitext (s : List Char) : List Char × List Char :=
  match lastDotIdx s with
  | none => (s, [])
  | some i =>
    if (s.take i).all (fun c => c = '.') then (s, [])
    else (s.take i, s.drop i)

/-- A filename the glob wildcard star refuses to match at its start. -/
def isHiddenName (fname : List Char) : Bool :=
  fname.head? == some '.'

/-- Source line 29, glob *.desktop in the bundle root: a root-level,
non-hidden file whose name ends in .desktop. -/
def isDesktopEntry (f : FileEntry) : Bool :=
  match f.path with
  | [fname] => !isHiddenName fname && ".desktop".data.isSuffixOf fname
  | _ => false

/-- The desktop files glob.glob finds in the root, in enumeration order. -/
def desktopFiles (b : Bundle) : List FileEntry :=
  b.filter isDesktopEntry

/-- Source lines 35-56: take the first desktop file, read it, and search
its text for Icon=(.+); none when there is no desktop file or no match. -/
def mainIconName (b : Bundle) : Option (List Char) :=
  match (desktopFiles b).head? with
  | none => none
  | some f => pyReSearchIcon f.text

/-- Source line 77, glob of the escaped pattern name.* in the bundle
root: a root-level file whose name is the icon name, a literal dot, and
any remainder (glob.escape makes the name literal; the star also matches
the empty remainder). -/
def isRootIconCandidate (name : List Char) (f : FileEntry) : Bool :=
  match f.path with
  | [fname] => (name ++ ['.']).isPrefixOf fname
  | _ => false

/-- The candidate root icons for the extracted name. -/
def rootCandidates (b : Bundle) (name : List Char) : List FileEntry :=
  b.filter (isRootIconCandidate name)

/-- Source lines 63-95: the root icon validity flag.  False when no icon
name was extracted, when the name holds a path separator, or when the
glob finds no candidate.  Otherwise the source filters the candidates by
extension and runs the per-candidate resolution check in a loop, but the
loop never appends to main_icon_check_results, so the final value is
all of the empty list, True (the per-candidate values are computed and
dropped; the source bug is preserved faithfully). -/
def rootIconValid (b : Bundle) : Option (List Char) → Bool
  | none => false
  | some name =>
    if name.contains '/' then false
    else
      let appdir_root_icons := rootCandidates b name
      if appdir_root_icons.isEmpty then false
      else
        let filtered := appdir_root_icons.filter fun f =>
          knownImageExts.contains (((splitext ((f.path.getLast?).getD [])).2).dropWhile (fun c => c == '.'))
        let _candidate_checks := filtered.map fun f => _check_icon_for_valid_resolution f.image
        let main_icon_check_results : List Bool := []
        main_icon_check_results.all (fun x => x)

/-- The components of usr/share/icons. -/
def usrShareIcons : List (List Char) :=
  ["usr".data, "share".data, "icons".data]

/-- Source lines 104-105, recursive glob usr/share/icons/**/*.* : the
path starts with usr/share/icons, every directory component below it is
non-hidden, and the filename is non-hidden and holds at least one dot
(the star does not match a leading dot and *.* demands a dot). -/
def treeGlobMatch (path : List (List Char)) : Bool :=
  usrShareIcons.isPrefixOf path &&
    (let rest := path.drop 3
     !rest.isEmpty &&
       rest.dropLast.all (fun d => !isHiddenName d) &&
       (match rest.getLast? with
        | some fname => !isHiddenName fname && fname.contains '.'
        | none => false))

/-- The files the icon-theme tree sub-validation enumerates. -/
def otherIcons (b : Bundle) : List FileEntry :=
  b.filter fun f => treeGlobMatch f.path

/-- Source line 173 comparison actual_res != path_res: the decoded size
is a pair (or None), the path resolution an arbitrary integer tuple;
None never equals a tuple, and a pair equals the tuple exactly when the
tuple is the two-element list of its components. -/
def resMismatch (actual : Option (Nat × Nat)) (pathRes : List Int) : Bool :=
  match actual with
  | none => true
  | some (w, h) => !([((w : Nat) : Int), ((h : Nat) : Int)] == pathRes)

/-- Source lines 111-176, the body of the per-file loop of the tree
sub-validation.  State: the aggregate flag and the current binding of
the local variable rel_path (none while it is still unbound).  A file
whose base name differs from the icon name takes the warning branch,
whose log call reads rel_path: when rel_path is still unbound this
raises UnboundLocalError, modelled as the error outcome. -/
def stepTreeFile (mainIcon : Option (List Char)) (st : Bool × Option (List (List Char)))
    (f : FileEntry) : Except String (Bool × Option (List (List Char))) :=
  let fname := (f.path.getLast?).getD []
  let split_fname := splitext fname
  if !(some split_fname.1 == mainIcon) then
    match st.2 with
    | none => Except.error "UnboundLocalError"
    | some _ => Except.ok st
  else
    let flag1 := if !(_check_icon_for_valid_resolution f.image) then false else st.1
    let rel_path := f.path.drop 3
    let split_path := rel_path
    let path_res0 : Option (List Int) :=
      if !(split_path.length == 4) || !(split_path[2]? == some "apps".data) then none
      else extract_res_from_path_component (split_path[1]?.getD [])
    let step151 :=
      if pythonFalsy path_res0 then (false, firstRecovered split_path)
      else (flag1, path_res0)
    match step151.2 with
    | none => Except.ok (false, some rel_path)
    | some pr =>
      if pr.isEmpty then Except.ok (false, some rel_path)
      else Except.ok ((if resMismatch f.image pr then false else step151.1), some rel_path)

/-- The per-file loop of the tree sub-validation, threading the state;
an exception aborts the loop (and the surrounding generator). -/
def runTreeLoop (mainIcon : Option (List Char)) :
    List FileEntry → Bool × Option (List (List Char)) → Except String Bool
  | [], st => Except.ok st.1
  | f :: rest, st =>
    match stepTreeFile mainIcon st f with
    | Except.error e => Except.error e
    | Except.ok st2 => runTreeLoop mainIcon rest st2

/-- The bundle-root path of the .DirIcon file. -/
def dotDirIconPath : List (List Char) :=
  [".DirIcon".data]

/-- Source lines 24-178, IconsCheck.run: the sequence of TestResult
records the generator yields, paired with the exception that aborted it,
if any (none when the generator ran to completion). -/
def IconsCheck_run (b : Bundle) : List TestResult × Option String :=
  let mainIcon := mainIconName b
  let r1 : TestResult :=
    ⟨rootIconValid b mainIcon, "icons.valid_appdir_root_icon", "Valid icon in AppDir root"⟩
  let r2 : TestResult :=
    ⟨_check_icon_for_valid_resolution (_get_icon_res b dotDirIconPath),
      "icons.valid_dotdiricon", "Valid icon file in .DirIcon"⟩
  match runTreeLoop mainIcon (otherIcons b) (true, none) with
  | Except.ok ok3 =>
    ([r1, r2, ⟨ok3, "icons.valid_other_icons", "Other integration icons valid"⟩], none)
  | Except.error e => ([r1, r2], some e)

/-- Bundle for C1: one desktop file naming foo, and a root icon foo.png
whose decoded resolution 100 by 100 fails the resolution check. -/
def bundleC1 : Bundle :=
  [⟨["app.desktop".data], "Icon=foo".data, none⟩,
   ⟨["foo.png".data], [], some (100, 100)⟩]

/-- Bundle for C2: a desktop file naming foo, and one icon-theme file
whose base name bar differs from foo; it is the first file of the tree
loop, so rel_path is still unbound when the warning branch reads it. -/
def bundleC2 : Bundle :=
  [⟨["app.desktop".data], "Icon=foo".data, none⟩,
   ⟨["usr".data, "share".data, "icons".data, "hicolor".data, "48x48".data,
      "apps".data, "bar.png".data], [], some (48, 48)⟩]

/-- Bundle for C3: no desktop file at all, and one icon-theme file; the
base name comparison against the absent icon name sends the file into
the warning branch with rel_path unbound. -/
def bundleC3 : Bundle :=
  [⟨["usr".data, "share".data, "icons".data, "hicolor".data, "48x48".data,
      "apps".data, "foo.png".data], [], some (48, 48)⟩]

/-- Bundle for C5: a desktop file naming foo and a file under
usr/share/icons whose name foo matches the icon name, has no extension,
and decodes to an invalid resolution. -/
def bundleC5 : Bundle :=
  [⟨["app.desktop".data], "Icon=foo".data, none⟩,
   ⟨["usr".data, "share".data, "icons".data, "hicolor".data, "48x48".data,
      "apps".data, "foo".data], [], some (100, 100)⟩]

/-- The extra file of the C5 amended-claim witness: directly below
usr/share/icons with a dotless name, so the recursive glob skips it. -/
def fileC5w : FileEntry :=
  ⟨["usr".data, "share".data, "icons".data, "foo".data], [], some (100, 100)⟩

/-- Bundle for C6, good variant: the theme file foo.png at the standard
location with decoded resolution 48 by 48, matching the path. -/
def bundleC6good : Bundle :=
  [⟨["app.desktop".data], "Icon=foo".data, none⟩,
   ⟨["usr".data, "share".data, "icons".data, "hicolor".data, "48x48".data,
      "apps".data, "foo.png".data], [], some (48, 48)⟩]

/-- Bundle for C6, bad variant: the same file decodes to 32 by 32, which
disagrees with the 48x48 path component. -/
def bundleC6bad : Bundle :=
  [⟨["app.desktop".data], "Icon=foo".data, none⟩,
   ⟨["usr".data, "share".data, "icons".data, "hicolor".data, "48x48".data,
      "apps".data, "foo.png".data], [], some (32, 32)⟩]

/-- Bundle for the C9 witness: the desktop file declares Icon=foo/bar. -/
def bundleC9w : Bundle :=
  [⟨["app.desktop".data], "Icon=foo/bar".data, none⟩]

/-- C1: in the root-icon sub-validation the claim demands failure as soon
as one candidate fails the resolution check; evaluating the embedded code
on a bundle whose only root-icon candidate foo.png decodes to 100 by 100
(failing the check) still yields a successful root-icon Result, because
the per-candidate results list is never filled and all of the empty list
is True. -/
theorem c1_root_icon_result_ignores_failing_candidate :
    _check_icon_for_valid_resolution (some (100, 100)) = false ∧
      rootCandidates bundleC1 "foo".data = [⟨["foo.png".data], [], some (100, 100)⟩] ∧
      (IconsCheck_run bundleC1).1[0]? =
        some ⟨true, "icons.valid_appdir_root_icon", "Valid icon in AppDir root"⟩ :=
  ⟨by decide, by decide, by decide⟩

/-- C2: the claim demands that a tree file whose base name differs from
the declared icon name is skipped without terminating the check; on a
bundle whose first (and only) tree file is such a file, the embedded
code instead aborts the generator with UnboundLocalError (the warning
branch reads the still-unbound local rel_path), after only two Results. -/
theorem c2_nonmatching_tree_file_raises :
    IconsCheck_run bundleC2 =
      ([⟨false, "icons.valid_appdir_root_icon", "Valid icon in AppDir root"⟩,
        ⟨false, "icons.valid_dotdiricon", "Valid icon file in .DirIcon"⟩],
        some "UnboundLocalError") := by
  decide

/-- C3: the claim demands exactly three Results regardless of the bundle
contents; a bundle with no desktop file and one icon-theme file makes
the generator raise inside the tree loop, so only two Results are
yielded and the third is dropped. -/
theorem c3_third_result_dropped_on_error :
    (IconsCheck_run bundleC3).1.length = 2 ∧
      (IconsCheck_run bundleC3).2 = some "UnboundLocalError" :=
  ⟨by decide, by decide⟩

/-- C6: a theme file at usr/share/icons/hicolor/48x48/apps/foo.png that
matches the declared icon name yields a successful tree Result when its
decoded resolution is 48 by 48, and a failing aggregate Result when it
decodes to 32 by 32 instead (path and decoded resolution disagree). -/
theorem c6_theme_icon_resolution_crosscheck :
    (IconsCheck_run bundleC6good).1[2]? =
        some ⟨true, "icons.valid_other_icons", "Other integration icons valid"⟩ ∧
      (IconsCheck_run bundleC6bad).1[2]? =
        some ⟨false, "icons.valid_other_icons", "Other integration icons valid"⟩ :=
  ⟨by decide, by decide⟩

/-- C7: the resolution-validity predicate succeeds exactly when both the
width and the height are members of the enumerated valid resolution
set. -/
theorem c7_resolution_validity_set_membership (w h : Nat) :
    _check_icon_for_valid_resolution (some (w, h)) = true ↔
      w ∈ _VALID_RESOLUTIONS ∧ h ∈ _VALID_RESOLUTIONS := by
  simp only [_check_icon_for_valid_resolution, Bool.and_eq_true]
  exact and_congr List.elem_iff List.elem_iff

/-- C8: whenever the bundle-root file .DirIcon is missing or cannot be
decoded (the resolution lookup returns none), the second Result of the
run, icons.valid_dotdiricon, is a failure; the lookup itself is total,
so the decode failure never aborts the run. -/
theorem c8_dotdiricon_missing_or_undecodable_fails (b : Bundle)
    (h : _get_icon_res b dotDirIconPath = none) :
    (IconsCheck_run b).1[1]? =
      some ⟨false, "icons.valid_dotdiricon", "Valid icon file in .DirIcon"⟩ := by
  simp only [IconsCheck_run, h]
  cases htree : runTreeLoop (mainIconName b) (otherIcons b) (true, none) <;> rfl

/-- C8 witness: the empty bundle has no .DirIcon, and its dotdiricon
Result is a failure. -/
theorem c8_dotdiricon_witness :
    _get_icon_res ([] : Bundle) dotDirIconPath = none ∧
      (IconsCheck_run ([] : Bundle)).1[1]? =
        some ⟨false, "icons.valid_dotdiricon", "Valid icon file in .DirIcon"⟩ :=
  ⟨by decide, c8_dotdiricon_missing_or_undecodable_fails [] (by decide)⟩

/-- C9: whenever the extracted icon name holds a path separator, the
first Result of the run, icons.valid_appdir_root_icon, is a failure, for
every bundle. -/
theorem c9_icon_path_separator_fails_root (b : Bundle) (name : List Char)
    (hname : mainIconName b = some name) (hsep : name.contains '/' = true) :
    (IconsCheck_run b).1[0]? =
      some ⟨false, "icons.valid_appdir_root_icon", "Valid icon in AppDir root"⟩ := by
  have hmem : '/' ∈ name := List.elem_iff.mp hsep
  have hroot : rootIconValid b (mainIconName b) = false := by
    rw [hname]
    simp [rootIconValid, hmem]
  simp only [IconsCheck_run, hroot]
  cases htree : runTreeLoop (mainIconName b) (otherIcons b) (true, none) <;> rfl

/-- C9 witness: a bundle whose desktop file declares Icon=foo/bar has a
failing root-icon Result. -/
theorem c9_icon_path_separator_witness :
    mainIconName bundleC9w = some "foo/bar".data ∧
      "foo/bar".data.contains '/' = true ∧
      (IconsCheck_run bundleC9w).1[0]? =
        some ⟨false, "icons.valid_appdir_root_icon", "Valid icon in AppDir root"⟩ :=
  ⟨by decide, by decide,
    c9_icon_path_separator_fails_root bundleC9w "foo/bar".data (by decide) (by decide)⟩

/-- Acceptance of the all-or-nothing integer parse: it succeeds exactly
when every chunk parses. -/
theorem isSome_intsOfParts (parts : List (List Char)) :
    (intsOfParts parts).isSome = parts.all fun p => (pyInt p).isSome := by
  induction parts with
  | nil => rfl
  | cons p rest ih =>
    simp only [intsOfParts, List.all_cons]
    cases hp : pyInt p <;> cases hr : intsOfParts rest <;> simp_all

/-- C10: a path component is accepted as a resolution exactly when all of
its x-separated pieces parse as integers; a bare integer component such
as 512 is accepted and yields the one-element tuple (512,), and such a
one-element recovery never equals a decoded two-element resolution in
the cross-check. -/
theorem c10_extract_res_tuple_semantics :
    (∀ s : List Char,
        (extract_res_from_path_component s).isSome =
          (splitOnChar 'x' s).all fun p => (pyInt p).isSome) ∧
      extract_res_from_path_component "512".data = some [512] ∧
      (∀ (pr : List Int) (w h : Nat),
        extract_res_from_path_component "512".data = some pr →
          resMismatch (some (w, h)) pr = true) := by
  refine ⟨fun s => isSome_intsOfParts _, by decide, ?_⟩
  intro pr w h hpr
  have h512 : extract_res_from_path_component "512".data = some [512] := by decide
  rw [h512] at hpr
  obtain rfl : ([512] : List Int) = pr := Option.some.inj hpr
  have hne : ([((w : Nat) : Int), ((h : Nat) : Int)] == ([512] : List Int)) = false := by
    refine beq_eq_false_iff_ne.mpr ?_
    simp
  simp [resMismatch, hne]

/-- C10 witness: the one-element recovery (512,) mismatches the decoded
pair 48 by 48. -/
theorem c10_extract_res_witness :
    resMismatch (some (48, 48)) [512] = true :=
  c10_extract_res_tuple_semantics.2.2 [512] 48 48 (by decide)

/-- splitOnChar always yields at least one chunk. -/
theorem splitOnChar_ne_nil (sep : Char) (l : List Char) : splitOnChar sep l ≠ [] := by
  cases l with
  | nil => simp [splitOnChar]
  | cons c rest =>
    simp only [splitOnChar]
    split
    · simp
    · split <;> simp

/-- The first chunk of splitOnChar is the longest separator-free front. -/
theorem splitOnChar_head (sep : Char) :
    ∀ (l : List Char) (hd : List Char) (tl : List (List Char)),
      splitOnChar sep l = hd :: tl → hd = l.takeWhile (fun a => a != sep)
  | [], hd, tl, h => by
    simp only [splitOnChar] at h
    cases h
    rfl
  | c :: rest, hd, tl, h => by
    simp only [splitOnChar] at h
    by_cases hc : c = sep
    · rw [if_pos hc] at h
      cases h
      subst hc
      simp [List.takeWhile_cons]
    · rw [if_neg hc] at h
      cases hsr : splitOnChar sep rest with
      | nil => exact absurd hsr (splitOnChar_ne_nil sep rest)
      | cons l ls =>
        rw [hsr] at h
        have h2 : (c :: l) :: ls = hd :: tl := h
        injection h2 with h3 h4
        have hrec := splitOnChar_head sep rest l ls hsr
        rw [← h3, List.takeWhile_cons, if_pos (by simpa using bne_iff_ne.mpr hc), hrec]

/-- A pattern whose characters all satisfy the predicate matches the
front of the takeWhile of a list exactly when it matches the front of
the list itself. -/
theorem isPrefixOf_takeWhile (p : Char → Bool) :
    ∀ (pat l : List Char), (∀ a ∈ pat, p a = true) →
      pat.isPrefixOf (l.takeWhile p) = pat.isPrefixOf l
  | [], l, _ => by simp [List.isPrefixOf]
  | a :: pat, [], _ => by simp [List.takeWhile_nil]
  | a :: pat, b :: l, hp => by
    rw [List.takeWhile_cons]
    by_cases hb : p b = true
    · rw [if_pos hb]
      simp only [List.isPrefixOf]
      rw [isPrefixOf_takeWhile p pat l (fun x hx => hp x (List.mem_cons_of_mem a hx))]
    · rw [if_neg hb]
      have hab : (a == b) = false := by
        refine beq_eq_false_iff_ne.mpr fun hEq => ?_
        exact hb (hEq ▸ hp a (List.mem_cons_self a pat))
      simp [List.isPrefixOf, hab]

/-- Dropping a matched pattern length commutes with takeWhile when every
pattern character satisfies the predicate. -/
theorem takeWhile_drop_len (p : Char → Bool) :
    ∀ (pat l : List Char), pat.isPrefixOf l = true → (∀ a ∈ pat, p a = true) →
      (l.takeWhile p).drop pat.length = (l.drop pat.length).takeWhile p
  | [], l, _, _ => by simp
  | a :: pat, [], h, _ => by simp [List.isPrefixOf] at h
  | a :: pat, b :: l, h, hp => by
    simp only [List.isPrefixOf, Bool.and_eq_true] at h
    have hab : a = b := beq_iff_eq.mp h.1
    have hpb : p b = true := hab ▸ hp a (List.mem_cons_self a pat)
    rw [List.takeWhile_cons, if_pos hpb]
    simp only [List.length_cons, List.drop_succ_cons]
    exact takeWhile_drop_len p pat l h.2 (fun x hx => hp x (List.mem_cons_of_mem a hx))

/-- C4 counterexample: on the text XIcon=bar newline Icon=baz, the
embedded extraction returns bar, supplied by a line where Icon= is NOT
at the beginning (it sits inside XIcon=bar), while the claimed
first-line-beginning-with-Icon= extraction would return baz. -/
theorem c4_counterexample_midline_occurrence :
    pyReSearchIcon "XIcon=bar\nIcon=baz".data = some "bar".data ∧
      iconValueFirstLineBegin "XIcon=bar\nIcon=baz".data = some "baz".data ∧
      some "bar".data ≠ some "baz".data :=
  ⟨by decide, by decide, by decide⟩

/-- C4 amended: the extraction scans the whole text for the first
occurrence of the substring Icon= followed by at least one non-newline
character, wherever it sits inside its line, and returns the rest of
that line; equivalently, the first line holding such an occurrence
supplies the value.  In particular a commented line like hash-Icon=bar
does supply the value. -/
theorem c4_extraction_scans_whole_text :
    (∀ l : List Char, pyReSearchIcon l = iconValueByLines l) ∧
      pyReSearchIcon "#Icon=bar".data = some "bar".data := by
  refine ⟨?_, by decide⟩
  intro l
  induction l with
  | nil => rfl
  | cons c rest ih =>
    by_cases hc : c = '\n'
    · subst hc
      exact ih
    · obtain ⟨ln, ls, hsr⟩ : ∃ ln ls, splitOnChar '\n' rest = ln :: ls := by
        cases h : splitOnChar '\n' rest with
        | nil => exact absurd h (splitOnChar_ne_nil '\n' rest)
        | cons a b => exact ⟨a, b, rfl⟩
      have hln : ln = rest.takeWhile (fun a => a != '\n') :=
        splitOnChar_head '\n' rest ln ls hsr
      have hsplit : splitOnChar '\n' (c :: rest) = (c :: ln) :: ls := by
        simp only [splitOnChar, if_neg hc, hsr]
      have hcln : c :: ln = (c :: rest).takeWhile (fun a => a != '\n') := by
        rw [List.takeWhile_cons, if_pos (by simpa using bne_iff_ne.mpr hc), hln]
      have hpats : ∀ a ∈ iconPat, (a != '\n') = true := by decide
      have e1 : iconPat.isPrefixOf (c :: ln) = iconPat.isPrefixOf (c :: rest) := by
        rw [hcln]
        exact isPrefixOf_takeWhile (fun a => a != '\n') iconPat (c :: rest) hpats
      simp only [iconValueByLines, splitLines, hsr, hsplit] at ih ⊢
      cases hpref : iconPat.isPrefixOf (c :: rest) with
      | false =>
        have hL : pyReSearchIcon (c :: rest) = pyReSearchIcon rest := by
          simp only [pyReSearchIcon, hpref, Bool.false_and]
          rw [if_neg Bool.false_ne_true]
        have hS : lineSearchIcon (c :: ln) = lineSearchIcon ln := by
          simp only [lineSearchIcon, e1, hpref, Bool.false_and]
          rw [if_neg Bool.false_ne_true]
        rw [hL, ih]
        simp only [linesFirst, hS]
      | true =>
        have e2 : (c :: ln).drop 5 =
            ((c :: rest).drop 5).takeWhile (fun a => a != '\n') := by
          rw [hcln]
          exact takeWhile_drop_len (fun a => a != '\n') iconPat (c :: rest) hpref hpats
        cases hV : (((c :: rest).drop 5).takeWhile (fun a => a != '\n')).isEmpty with
        | true =>
          have hL : pyReSearchIcon (c :: rest) = pyReSearchIcon rest := by
            simp only [pyReSearchIcon, hpref, hV, Bool.not_true, Bool.and_false]
            rw [if_neg Bool.false_ne_true]
          have hS : lineSearchIcon (c :: ln) = lineSearchIcon ln := by
            simp only [lineSearchIcon, e1, hpref, e2, hV, Bool.not_true, Bool.and_false]
            rw [if_neg Bool.false_ne_true]
          rw [hL, ih]
          simp only [linesFirst, hS]
        | false =>
          have hL : pyReSearchIcon (c :: rest) =
              some (((c :: rest).drop 5).takeWhile (fun a => a != '\n')) := by
            simp only [pyReSearchIcon, hpref, hV, Bool.not_false, Bool.and_self]
            rw [if_pos trivial]
          have hS : lineSearchIcon (c :: ln) =
              some (((c :: rest).drop 5).takeWhile (fun a => a != '\n')) := by
            simp only [lineSearchIcon, e1, hpref, e2, hV, Bool.not_false, Bool.and_self]
            rw [if_pos trivial]
          rw [hL]
          simp only [linesFirst, hS]

/-- A Bool-valued list front match bounds the length. -/
theorem isPrefixOf_length {α : Type} [BEq α] :
    ∀ (l₁ l₂ : List α), l₁.isPrefixOf l₂ = true → l₁.length ≤ l₂.length
  | [], _, _ => Nat.zero_le _
  | a :: as, [], h => by simp [List.isPrefixOf] at h
  | a :: as, b :: bs, h => by
    simp only [List.isPrefixOf, Bool.and_eq_true] at h
    exact Nat.succ_le_succ (isPrefixOf_length as bs h.2)

/-- Appending one file the predicate rejects does not change find?. -/
theorem find?_append_single (p : FileEntry → Bool) (b : Bundle) (f : FileEntry)
    (hf : p f = false) : (b ++ [f]).find? p = b.find? p := by
  induction b with
  | nil =>
    simp only [List.nil_append]
    rw [List.find?_cons_of_neg _ (by simp [hf])]
  | cons a b ih =>
    cases ha : p a with
    | true =>
      rw [List.cons_append, List.find?_cons_of_pos _ ha, List.find?_cons_of_pos _ ha]
    | false =>
      rw [List.cons_append, List.find?_cons_of_neg _ (by simp [ha]),
        List.find?_cons_of_neg _ (by simp [ha]), ih]

/-- C5 counterexample: in bundleC5 the file usr/share/icons/.../foo has
the declared base name foo and an invalid decoded resolution, yet the
recursive glob pattern star-dot-star does not enumerate it (its name
holds no dot), so the tree sub-validation sees no file at all and its
Result stays success, where the claim demands failure. -/
theorem c5_counterexample_dotless_file_not_enumerated :
    (splitext "foo".data).1 = "foo".data ∧
      mainIconName bundleC5 = some "foo".data ∧
      _check_icon_for_valid_resolution (some (100, 100)) = false ∧
      otherIcons bundleC5 = [] ∧
      (IconsCheck_run bundleC5).1[2]? =
        some ⟨true, "icons.valid_other_icons", "Other integration icons valid"⟩ :=
  ⟨by decide, by decide, by decide, by decide, by decide⟩

/-- C5 amended: the tree sub-validation enumerates only files matching
the recursive pattern usr/share/icons/**/*.* ; a file below
usr/share/icons that fails this pattern (dotless or hidden name, or a
hidden directory component) is invisible to the whole check: adding it
to a bundle changes no Result. -/
theorem c5_nonglob_files_invisible (b : Bundle) (f : FileEntry)
    (hpre : usrShareIcons.isPrefixOf f.path = true)
    (hglob : treeGlobMatch f.path = false) :
    IconsCheck_run (b ++ [f]) = IconsCheck_run b := by
  have hlen : 3 ≤ f.path.length := isPrefixOf_length usrShareIcons f.path hpre
  have hdesk : isDesktopEntry f = false := by
    unfold isDesktopEntry
    rcases hp : f.path with _ | ⟨x, _ | ⟨y, ys⟩⟩
    · rfl
    · rw [hp] at hlen
      simp at hlen
    · rfl
  have hcand : ∀ name, isRootIconCandidate name f = false := by
    intro name
    unfold isRootIconCandidate
    rcases hp : f.path with _ | ⟨x, _ | ⟨y, ys⟩⟩
    · rfl
    · rw [hp] at hlen
      simp at hlen
    · rfl
  have hdot : (f.path == dotDirIconPath) = false := by
    refine beq_eq_false_iff_ne.mpr fun hEq => ?_
    rw [hEq] at hlen
    exact absurd hlen (by decide)
  have hdeskL : desktopFiles (b ++ [f]) = desktopFiles b := by
    unfold desktopFiles
    rw [List.filter_append]
    simp [hdesk]
  have hmain : mainIconName (b ++ [f]) = mainIconName b := by
    unfold mainIconName
    rw [hdeskL]
  have hrootV : ∀ mi, rootIconValid (b ++ [f]) mi = rootIconValid b mi := by
    intro mi
    cases mi with
    | none => rfl
    | some name =>
      have hcandL : rootCandidates (b ++ [f]) name = rootCandidates b name := by
        unfold rootCandidates
        rw [List.filter_append]
        simp [hcand name]
      simp only [rootIconValid]
      rw [hcandL]
  have hotherL : otherIcons (b ++ [f]) = otherIcons b := by
    unfold otherIcons
    rw [List.filter_append]
    simp [hglob]
  have hres : _get_icon_res (b ++ [f]) dotDirIconPath = _get_icon_res b dotDirIconPath := by
    unfold _get_icon_res
    rw [find?_append_single _ b f hdot]
  simp only [IconsCheck_run]
  rw [hmain, hrootV (mainIconName b), hotherL, hres]

/-- C5 amended witness: the dotless file directly below usr/share/icons
is invisible: adding it to the empty bundle leaves the run unchanged. -/
theorem c5_nonglob_files_invisible_witness :
    usrShareIcons.isPrefixOf fileC5w.path = true ∧
      treeGlobMatch fileC5w.path = false ∧
      IconsCheck_run ([] ++ [fileC5w]) = IconsCheck_run [] :=
  ⟨by decide, by decide, c5_nonglob_files_invisible [] fileC5w (by decide) (by decide)⟩
